import Mathlib

/-!
Verification of the ACAI client library core against its specification.

Each namespace below is a shallow embedding of one component of the source:

* `BufferedCallbacks` — the thread-safe notification queue of
  `buffered_callbacks.c` (`load_element`, `process_buffered_callbacks`, the
  coalescing limit).
* `PayloadCache` — the byte-level payload buffer handoff of
  `ACAI::Client::PrivateData::updateBuffer` in `acai_client.cpp`.
* `Validate` — the handle validation of `ACAI::Client::validateChannelId`,
  `ACAI::Client::cast` and the dispatch decisions of
  `ACAI::Client::eventHandler`.
* `Dispatch` — exception handling and iteration structure of
  `ACAI::Client::callDataUpdate` (and its connection / put-callback peers).
* `Put` — the put / put-callback state machine of `ACAI::Client::putData`
  and the put branch of `ACAI::Client::eventHandler`.
* `Conn` — the connection-change filtering of
  `ACAI::Client::callConnectionUpdate` and `ACAI::Client::connectionHandler`.
* `Registration` — the symmetric observer/client registries of
  `ACAI::Abstract_Client_User` and `ACAI::Client`.
* `Update` — the guard clauses of `ACAI::Client::updateHandler`.

Machine integers are modelled as `Nat`; null pointers are modelled either as
`Option.none` or as the address `0`, matching how the individual C++ function
uses them.  Definitions come first, all theorems follow at the end of the
file.
-/

namespace BufferedCallbacks

/-- The kinds of buffered callback items (`Callback_Kinds` in
`buffered_callbacks.c`): connection events, data/put events, printf text. -/
inductive Kind : Type
  | connection
  | event
  | printf
deriving DecidableEq, Repr

/-- One queued callback item (`Callback_Items`).  For `event` items we keep
the fields of `event_handler_args` that the coalescing match inspects
(`chid`, `type`, `usr`) plus the copied payload bytes (`dbr`). -/
inductive Item : Type
  | connection (chid : Nat) (op : Nat)
  | event (chid : Nat) (typ : Nat) (usr : Nat) (dbr : List Nat)
  | printf (text : String)
deriving DecidableEq, Repr

/-- `pci->kind == EVENT` test. -/
def isEvent : Item → Bool
  | .event _ _ _ _ => true
  | _ => false

/-- The match predicate of the coalescing scan in `load_element`:
the candidate `ci` must be an EVENT item whose `chid`, `type` and `usr`
equal those of the incoming item `pci`. -/
def eventMatches (pci ci : Item) : Bool :=
  match pci, ci with
  | .event c t u _, .event c' t' u' _ => c' == c && t' == t && u' == u
  | _, _ => false

/-- Initial (default) value of the static module variable
`multiple_check_limit` in `buffered_callbacks.c`. -/
def multiple_check_limit : Nat := 1000

/-- `set_multiple_check_limit`: the limit is clamped from below at 100. -/
def set_multiple_check_limit (d : Int) : Nat :=
  if d ≥ 100 then d.toNat else 100

/-- The scan-and-delete of `load_element`: walk the list from the front
(`ellFirst` / `ellNext`), delete the first element satisfying `p`
(`ellDelete` plus `free_element`), or report `none` if no element matches. -/
def removeFirst (p : Item → Bool) : List Item → Option (List Item)
  | [] => none
  | x :: xs => if p x then some xs else (removeFirst p xs).map (fun ys => x :: ys)

/-- `load_element` from `buffered_callbacks.c`: when the incoming item is an
EVENT and the queue length exceeds `limit`, remove the first (oldest)
matching EVENT item, counting one discard; then append the new item at the
tail (`ellAdd`).  Returns the new queue and the discard-count increment. -/
def load_element (q : List Item) (pci : Item) (limit : Nat) : List Item × Nat :=
  if isEvent pci = true ∧ q.length > limit then
    match removeFirst (eventMatches pci) q with
    | some q' => (q' ++ [pci], 1)
    | none => (q ++ [pci], 0)
  else
    (q ++ [pci], 0)

/-- Actions performed by the drain loop: each popped item is dispatched to
its application handler and then freed, in that order. -/
inductive Action : Type
  | dispatch (i : Item)
  | free (i : Item)
deriving DecidableEq, Repr

/-- The `while` loop of `process_buffered_callbacks`: `n` counts the items
processed so far; the counter is incremented and tested against `max` at the
end of the loop body, so at least one item is processed per call whenever
any is available, regardless of `max`. -/
def drainLoop : List Item → Nat → Int → Nat × List Item × List Action
  | [], n, _ => (n, [], [])
  | i :: rest, n, mx =>
      let n' := n + 1
      if (n' : Int) ≥ mx then (n', rest, [.dispatch i, .free i])
      else
        let r := drainLoop rest n' mx
        (r.1, r.2.1, .dispatch i :: .free i :: r.2.2)

/-- `process_buffered_callbacks (max)`: returns `-1` without touching the
queue when `initialise_buffered_callbacks` has never been called; otherwise
drains the queue FIFO from the head (`ellGet`).  Result: the returned count,
the remaining queue, and the performed dispatch/free actions in order. -/
def process_buffered_callbacks (initialized : Bool) (q : List Item) (mx : Int) :
    Int × List Item × List Action :=
  if initialized then
    let r := drainLoop q 0 mx
    ((r.1 : Int), r.2.1, r.2.2)
  else (-1, q, [])

/-- Number of items the drain loop processes when started with counter `n`:
`max - n` more items would reach the cut-off, but always at least one, and
never more than the queue holds. -/
def drainCount (q : List Item) (n : Nat) (mx : Int) : Nat :=
  min (max (mx - (n : Int)).toNat 1) q.length

end BufferedCallbacks

namespace PayloadCache

/-- `MINIMUM_BUFFER_SIZE` in `acai_client.cpp` is `sizeof (dbr_string_t)`,
i.e. 40 bytes: the static-allocation threshold of the payload cache. -/
def MINIMUM_BUFFER_SIZE : Nat := 40

/-- Where the cache's value-data pointer (`dataValues.genericRef`) points:
at the inline `localBuffer`, or into a numbered heap block. -/
inductive DataRef : Type
  | localBuf
  | heapBlock (id : Nat)
deriving DecidableEq, Repr

/-- A heap of numbered blocks: `alive` maps the ids of currently allocated
blocks to their byte contents; `freedIds` records the blocks freed so far. -/
structure Mem : Type where
  alive : List (Nat × List Nat)
  freedIds : List Nat
deriving DecidableEq, Repr

/-- Contents of block `b`, when allocated. -/
def Mem.lookup (m : Mem) (b : Nat) : Option (List Nat) := m.alive.lookup b

/-- Overwrite the contents of block `b`. -/
def Mem.write (m : Mem) (b : Nat) (bytes : List Nat) : Mem :=
  { m with alive := m.alive.map (fun p => if p.1 = b then (b, bytes) else p) }

/-- `free (b)`: the block is deallocated and its id becomes dangling. -/
def Mem.free (m : Mem) (b : Nat) : Mem :=
  { alive := m.alive.filter (fun p => decide (p.1 ≠ b)), freedIds := b :: m.freedIds }

/-- The payload-cache fields of `ACAI::Client::PrivateData`: the inline
`localBuffer` (40 bytes), the owned heap block `argsDbr` (`none` = NULL),
and the current value-data pointer `dataValues.genericRef`. -/
structure Cache : Type where
  localBuffer : List Nat
  argsDbr : Option Nat
  dataRef : DataRef
deriving DecidableEq, Repr

/-- `memcpy (dst, src, len)` over byte lists: the first `len` bytes of `dst`
are replaced by the first `len` bytes of `src`. -/
def memcpyBytes (dst src : List Nat) (len : Nat) : List Nat :=
  src.take len ++ dst.drop len

/-- `ACAI::Client::PrivateData::updateBuffer`, statement by statement, as a
trace of observable states (initial state included).  `blk` is the heap
block holding the incoming `args.dbr` data, whose value portion
(`dbr_value_ptr`, modelled at offset 0) is `len` bytes long
(`dbr_value_size [args.type] * args.count`).

The steps are: save `argsDbr` into `copyArgsDbr` and null it; if the value
data fits the local buffer, `memcpy` it *to the current data pointer*
(`this->dataValues.genericRef` — this is what the source does) and point
`dataRef` at the local buffer; otherwise take ownership of `blk` and point
`dataRef` at its value bytes; finally free the previously owned block. -/
def updateBufferTrace (c : Cache) (m : Mem) (blk : Nat) (len : Nat) :
    List (Cache × Mem) :=
  let copyArgsDbr := c.argsDbr
  let c1 : Cache := { c with argsDbr := none }
  let newBytes := ((m.lookup blk).getD []).take len
  if len ≤ MINIMUM_BUFFER_SIZE then
    let step2 : Cache × Mem :=
      match c1.dataRef with
      | .localBuf => ({ c1 with localBuffer := memcpyBytes c1.localBuffer newBytes len }, m)
      | .heapBlock b => (c1, m.write b (memcpyBytes ((m.lookup b).getD []) newBytes len))
    let step3 : Cache × Mem := ({ step2.1 with dataRef := .localBuf }, step2.2)
    let step4 : Cache × Mem :=
      match copyArgsDbr with
      | some b => (step3.1, step3.2.free b)
      | none => step3
    [(c, m), (c1, m), step2, step3, step4]
  else
    let step2 : Cache × Mem := ({ c1 with argsDbr := some blk, dataRef := .heapBlock blk }, m)
    let step4 : Cache × Mem :=
      match copyArgsDbr with
      | some b => (step2.1, step2.2.free b)
      | none => step2
    [(c, m), (c1, m), step2, step4]

/-- The state when `updateBuffer` returns. -/
def updateBuffer (c : Cache) (m : Mem) (blk : Nat) (len : Nat) : Cache × Mem :=
  (updateBufferTrace c m blk len).getLastD (c, m)

/-- The cache does not reference freed memory: the data pointer targets the
inline buffer or a heap block that has not been freed. -/
def refOk (c : Cache) (m : Mem) : Bool :=
  match c.dataRef with
  | .localBuf => true
  | .heapBlock b => decide (b ∉ m.freedIds)

end PayloadCache

namespace Validate

/-- `MAGIC_NUMBER_C` embedded in every live `ACAI::Client`. -/
def MAGIC_NUMBER_C : Nat := 0x3579ACA1

/-- `MAGIC_NUMBER_P` embedded in every live `ACAI::Client::PrivateData`. -/
def MAGIC_NUMBER_P : Nat := 0x1234ACA1

/-- The fields of `ACAI::Client::PrivateData` that handle validation and
event dispatch inspect.  Pointer-valued fields are `Nat` with `0` standing
for NULL, as the source compares them with `==`. -/
structure PData : Type where
  magic_number : Nat
  channel_id : Nat
  getFuncArg : Nat
  subFuncArg : Nat
  putFuncArg : Nat
  pending_put_callback : Bool
deriving DecidableEq, Repr

/-- The fields of `ACAI::Client` that `ACAI::Client::cast` inspects: the
magic number and the private-data pointer (`none` = NULL).  Destroyed
objects keep their storage but have zeroed magic numbers. -/
structure Client : Type where
  magic_number : Nat
  pd : Option PData
deriving DecidableEq, Repr

/-- `ACAI::Client::cast`: reinterpret address `item` (`0` = NULL) as a
client object and sanity-check both magic numbers; `mem` gives the object
any address reinterprets to. -/
def cast (mem : Nat → Client) (item : Nat) : Option Nat :=
  if item = 0 then none
  else
    let c := mem item
    if c.magic_number = MAGIC_NUMBER_C then
      match c.pd with
      | some p => if p.magic_number = MAGIC_NUMBER_P then some item else none
      | none => none
    else none

/-- `ACAI::Client::validateChannelId`: recover the owning client from a
foreign channel id, or reject the event.  `puser` models `ca_puser`, the
user data attached to the channel id at the channel-access layer
(`0` = NULL).  Checks in source order: non-null handle, non-null user data,
magic-number cast, non-null stored handle, stored handle equals the
incoming handle. -/
def validateChannelId (mem : Nat → Client) (puser : Nat → Nat)
    (channel_id : Nat) : Option Nat :=
  if channel_id = 0 then none
  else
    let user_data := puser channel_id
    if user_data = 0 then none
    else
      match cast mem user_data with
      | none => none
      | some addr =>
          match (mem addr).pd with
          | none => none
          | some p =>
              if p.channel_id = 0 then none
              else if p.channel_id ≠ channel_id then none
              else some addr

/-- The dispositions of `ACAI::Client::eventHandler` for an event carrying
user tag `usr`: a get/subscription tag with normal status and data applies
the update; a put tag with a pending put callback applies the
acknowledgement; an unknown tag is silently discarded; the remaining cases
only report a diagnostic. -/
inductive EventOutcome : Type
  | updateApplied
  | putAckApplied
  | errorReported
  | discarded
deriving DecidableEq, Repr

/-- `ACAI::Client::eventHandler`, applied to the client's private data. -/
def eventHandler (p : PData) (usr : Nat) (statusNormal : Bool)
    (dbrPresent : Bool) : EventOutcome :=
  if usr = p.getFuncArg ∨ usr = p.subFuncArg then
    if statusNormal then
      if dbrPresent then .updateApplied else .errorReported
    else .errorReported
  else if usr = p.putFuncArg then
    if p.pending_put_callback then .putAckApplied else .errorReported
  else .discarded

/-- `ACAI::Client_Private::connectionHandler`: a buffered connection event
for `channel_id` is applied to whichever client `validateChannelId`
recovers, and dropped otherwise. -/
def connectionEventTarget (mem : Nat → Client) (puser : Nat → Nat)
    (channel_id : Nat) : Option Nat :=
  validateChannelId mem puser channel_id

/-- `ACAI::Client_Private::eventHandler`: a buffered get/sub/put event for
`channel_id` with user tag `usr` reaches `Client::eventHandler` of the
validated client; `some (addr, outcome)` gives the client and its
disposition, `none` means validation dropped the event. -/
def dataEventDisposition (mem : Nat → Client) (puser : Nat → Nat)
    (channel_id : Nat) (usr : Nat) (statusNormal dbrPresent : Bool) :
    Option (Nat × EventOutcome) :=
  match validateChannelId mem puser channel_id with
  | none => none
  | some addr =>
      match (mem addr).pd with
      | none => none
      | some p => some (addr, eventHandler p usr statusNormal dbrPresent)

/-- World for the handle-reuse scenario: the client at address 1 was closed
(`closeChannel` nulled its stored channel id), the newer client at address
2 now owns foreign handle 7, and `ca_puser 7` yields address 2 because the
channel-access layer recycled the handle for the newer client. -/
def memReuse : Nat → Client := fun a =>
  if a = 1 then ⟨MAGIC_NUMBER_C, some ⟨MAGIC_NUMBER_P, 0, 0, 0, 0, false⟩⟩
  else if a = 2 then ⟨MAGIC_NUMBER_C, some ⟨MAGIC_NUMBER_P, 7, 31, 32, 33, false⟩⟩
  else ⟨0, none⟩

/-- `ca_puser` for the handle-reuse scenario. -/
def puserReuse : Nat → Nat := fun h => if h = 7 then 2 else 0

end Validate

namespace Dispatch

/-- Whether a callback returns normally or raises an exception. -/
inductive Behavior : Type
  | ok
  | throws
deriving DecidableEq, Repr

/-- What one `callDataUpdate` (equally `callConnectionUpdate` or
`callPutCallbackNotifcation`) invocation did: whether the virtual hook ran,
which registered observers were invoked (in order), whether the
function-pointer handler ran, and how many exception reports the trailing
`ACAI_CATCH_EXCEPTION` emitted.  That the function is total with this
result type — it returns a log rather than propagating an exception — is
the formal counterpart of the drain loop never being aborted. -/
structure DispatchLog : Type where
  hookCalled : Bool
  invoked : List Nat
  handlerCalled : Bool
  reported : Nat
deriving DecidableEq, Repr

/-- The `ACAI_ITERATE` loop over the registered users inside the single
`try` block: invoke each observer in turn until one throws.  Returns the
invoked prefix and whether a throw occurred. -/
def iterateUsers : List (Nat × Behavior) → List Nat × Bool
  | [] => ([], false)
  | (i, b) :: rest =>
      match b with
      | .throws => ([i], true)
      | .ok =>
          let r := iterateUsers rest
          (i :: r.1, r.2)

/-- `ACAI::Client::callDataUpdate`: one `try` block wraps the virtual hook,
the whole observer loop and the function-pointer handler; the trailing
`ACAI_CATCH_EXCEPTION` catches anything thrown inside the block and reports
it to `std::cerr`. -/
def callDataUpdate (hook : Behavior) (users : List (Nat × Behavior))
    (handler : Option Behavior) : DispatchLog :=
  match hook with
  | .throws => ⟨true, [], false, 1⟩
  | .ok =>
      let r := iterateUsers users
      if r.2 then ⟨true, r.1, false, 1⟩
      else
        match handler with
        | none => ⟨true, r.1, false, 0⟩
        | some .ok => ⟨true, r.1, true, 0⟩
        | some .throws => ⟨true, r.1, true, 1⟩

/-- A reentrant operation an observer's callback may perform on the
registered-observer set while that set is being iterated
(`registerUser` / `deregisterUser` / nothing). -/
inductive ObsAction : Type
  | none
  | register (j : Nat)
  | deregister (j : Nat)
deriving DecidableEq, Repr

/-- `std::set` insert on a strictly sorted list of observer addresses. -/
def sortedInsert (x : Nat) : List Nat → List Nat
  | [] => [x]
  | y :: ys =>
      if x < y then x :: y :: ys
      else if x = y then y :: ys
      else y :: sortedInsert x ys

/-- Apply an observer's reentrant action to the registered set. -/
def applyAction (act : ObsAction) (s : List Nat) : List Nat :=
  match act with
  | .none => s
  | .register j => sortedInsert j s
  | .deregister j => s.erase j

/-- Elements the iterator has still to visit: all of them at `begin()`
(`last = none`), otherwise those strictly above the last visited one. -/
def afterPos (last : Option Nat) (y : Nat) : Bool :=
  match last with
  | none => true
  | some x => decide (x < y)

/-- `++it` on a `std::set` iterator positioned at `last`: the smallest
element of the current (sorted) set greater than `last`. -/
def nextAfter (last : Option Nat) (s : List Nat) : Option Nat :=
  (s.filter (afterPos last)).head?

/-- The `ACAI_ITERATE` loop of `callDataUpdate` over the *live*
`registeredUsers` set (`for (user = s.begin(); user != s.end(); ++user)`):
each visited observer may mutate the set reentrantly through `act`, and the
iterator then advances in the mutated set.  `fuel` bounds the recursion
(visit positions strictly increase, so each concrete run is finite).
Returns the invoked observers in order and the final set. -/
def liveIterate (act : Nat → ObsAction) :
    Nat → Option Nat → List Nat → List Nat × List Nat
  | 0, _, s => ([], s)
  | fuel + 1, last, s =>
      match nextAfter last s with
      | Option.none => ([], s)
      | Option.some cur =>
          let s' := applyAction (act cur) s
          let r := liveIterate act fuel (some cur) s'
          (cur :: r.1, r.2)

/-- One delivery in a dispatch: the channel's own virtual hook, a
registered observer, or the function-pointer handler. -/
inductive Delivery : Type
  | hook
  | observer (i : Nat)
  | handler
deriving DecidableEq, Repr

/-- The delivery order of `ACAI::Client::callDataUpdate` with exceptions
absent: first the virtual hook (`this->dataUpdate`), then the iteration
over the registered users, last the optional function-pointer handler. -/
def dispatchDeliveries (users : List Nat) (act : Nat → ObsAction)
    (hasHandler : Bool) (fuel : Nat) : List Delivery :=
  Delivery.hook ::
    ((liveIterate act fuel none users).1.map Delivery.observer ++
      (if hasHandler then [Delivery.handler] else []))

end Dispatch

namespace Put

/-- The fields of `ACAI::Client::PrivateData` that `putData` reads and
writes: connection state, foreign channel handle (`0` = NULL), and the two
put-callback flags (`use_put_callback` mode, `pending_put_callback`
state). -/
structure PutState : Type where
  connected : Bool
  channel_id : Nat
  use_put_callback : Bool
  pending_put_callback : Bool
deriving DecidableEq, Repr

/-- Which foreign channel-access call `putData` issued. -/
inductive Issued : Type
  | nothing
  | putCallback
  | plainPut
deriving DecidableEq, Repr

/-- `ACAI::Client::putData`.  `foreignOk` is whether the issued channel
access call returns `ECA_NORMAL`.  Result: the boolean return value, the
state after the call, and which foreign call was issued. -/
def putData (s : PutState) (foreignOk : Bool) : Bool × PutState × Issued :=
  if s.connected = false ∨ s.channel_id = 0 then (false, s, .nothing)
  else if s.use_put_callback then
    if s.pending_put_callback then (false, s, .nothing)
    else (foreignOk, { s with pending_put_callback := foreignOk }, .putCallback)
  else (foreignOk, s, .plainPut)

/-- The put branch of `ACAI::Client::eventHandler`: when a put callback
arrives while one is pending, the pending flag is cleared and the
write-acknowledgement is dispatched; otherwise only a diagnostic is
reported.  Result: the state after, and whether the ack dispatch fired. -/
def putAck (s : PutState) : PutState × Bool :=
  if s.pending_put_callback then ({ s with pending_put_callback := false }, true)
  else (s, false)

end Put

namespace Conn

/-- `ACAI::Client::PrivateData::ConnectionStatus`. -/
inductive ConnectionStatus : Type
  | csNull
  | csPending
  | csConnected
  | csDisconnected
deriving DecidableEq, Repr

/-- The connection-reporting fields of a client plus a log of the fired
connection dispatches (the reported `isConnected` values, in order). -/
structure ConnState : Type where
  connectionStatus : ConnectionStatus
  lastIsConnected : Bool
  pending_put_callback : Bool
  dispatches : List Bool
deriving DecidableEq, Repr

/-- `ACAI::Client::isConnected`. -/
def isConnected (s : ConnState) : Bool :=
  s.connectionStatus == ConnectionStatus.csConnected

/-- `ACAI::Client::callConnectionUpdate`: fire the connection dispatch
chain only when connectivity changed since the previous report
(`lastIsConnected`). -/
def callConnectionUpdate (s : ConnState) : ConnState :=
  if s.lastIsConnected == isConnected s then s
  else { s with lastIsConnected := isConnected s,
                dispatches := s.dispatches ++ [isConnected s] }

/-- `ACAI::Client::connectionHandler` on `CA_OP_CONN_UP`: mark the channel
connected (host metadata caching and read/subscribe issuing touch other
state), then report through `callConnectionUpdate`. -/
def onConnectedUp (s : ConnState) : ConnState :=
  callConnectionUpdate { s with connectionStatus := ConnectionStatus.csConnected }

/-- `ACAI::Client::connectionHandler` on `CA_OP_CONN_DOWN`: clear the
pending put callback, mark disconnected, then report. -/
def onConnectedDown (s : ConnState) : ConnState :=
  callConnectionUpdate
    { s with connectionStatus := ConnectionStatus.csDisconnected,
             pending_put_callback := false }

end Conn

namespace Registration

/-- The two registries, indexed by object addresses: `cu c` is channel
`c`'s `registeredUsers` set (`ACAI::Client::registeredUsers`), and `uc u`
is observer `u`'s `registeredClients` set
(`ACAI::Abstract_Client_User::registeredClients`). -/
structure World : Type where
  cu : Nat → Finset Nat
  uc : Nat → Finset Nat

/-- `Abstract_Client_User::registerClient`: set up the two-way
cross-reference — `client->registerUser (this)` inserts the observer into
the channel's set, then the observer inserts the channel into its own. -/
def registerClient (w : World) (u c : Nat) : World :=
  { cu := Function.update w.cu c (insert u (w.cu c)),
    uc := Function.update w.uc u (insert c (w.uc u)) }

/-- `Abstract_Client_User::deregisterClient`: clear the two-way
cross-reference. -/
def deregisterClient (w : World) (u c : Nat) : World :=
  { cu := Function.update w.cu c ((w.cu c).erase u),
    uc := Function.update w.uc u ((w.uc u).erase c) }

/-- `ACAI::Client::~Client` calling `removeClientFromAllUserLists`: every
observer registered with `c` drops `c` from its client set
(`removeClientFromList`), and `c`'s own user set is cleared. -/
def destroyClient (w : World) (c : Nat) : World :=
  { cu := Function.update w.cu c ∅,
    uc := fun u => if u ∈ w.cu c then (w.uc u).erase c else w.uc u }

/-- `Abstract_Client_User::~Abstract_Client_User` calling
`deregisterAllClients` on its own set: each registered channel drops `u`
(`deregisterUser`), and `u`'s own client set is cleared. -/
def destroyUser (w : World) (u : Nat) : World :=
  { cu := fun c => if c ∈ w.uc u then (w.cu c).erase u else w.cu c,
    uc := Function.update w.uc u ∅ }

/-- Registration symmetry: an observer is in a channel's registered-user
set iff that channel is in the observer's registered-client set. -/
def Symm (w : World) : Prop :=
  ∀ u c, u ∈ w.cu c ↔ c ∈ w.uc u

end Registration

namespace Update

/-- The cached fields `ACAI::Client::updateHandler` may touch: connection
status, the first-update flag, the value payload, the decoded metadata and
alarm status/severity/time stamp (abstracted to single values), and the two
size fields written just before buffering. -/
structure UState : Type where
  connectionStatus : Conn.ConnectionStatus
  is_first_update : Bool
  payload : List Nat
  meta : Nat
  alarm : Nat
  logical_data_size : Nat
  data_field_size : Nat
deriving DecidableEq, Repr

/-- Outcome of one `updateHandler` call: the state afterwards, the
data-update dispatches fired (carrying their first-update flags), and the
number of diagnostics issued through `reportError`. -/
structure UResult : Type where
  state : UState
  dispatched : List Bool
  reports : Nat
deriving DecidableEq, Repr

/-- The guard structure of `ACAI::Client::updateHandler`.  `typeValid`
models `dbr_type_is_valid (args.type)`; the value byte length is
`dbr_value_size [args.type] * args.count`; `isControlType` distinguishes
`DBR_CTRL_*`/`DBR_STS_*` updates (which decode metadata) from `DBR_TIME_*`
updates (which leave metadata untouched).  The guards, in source order:
not connected — reported via `reportError`, ignored; invalid type tag —
reported, ignored; zero value length — silently ignored (the report is
commented out in the source); otherwise the payload is cached, status and
(for control-style updates) metadata are decoded, one data-update dispatch
fires carrying the first-update flag, and the flag is cleared. -/
def updateHandler (s : UState) (typeValid : Bool) (valueSize count : Nat)
    (newPayload : List Nat) (isControlType : Bool) (newMeta newAlarm : Nat) :
    UResult :=
  if s.connectionStatus ≠ Conn.ConnectionStatus.csConnected then ⟨s, [], 1⟩
  else if typeValid = false then ⟨s, [], 1⟩
  else if valueSize * count = 0 then ⟨s, [], 0⟩
  else
    let s1 := { s with
      logical_data_size := valueSize * count,
      data_field_size := valueSize,
      payload := newPayload,
      meta := if isControlType then newMeta else s.meta,
      alarm := newAlarm }
    ⟨{ s1 with is_first_update := false }, [s.is_first_update], 0⟩

end Update

/-! ## Theorems -/

namespace BufferedCallbacks

theorem removeFirst_no_match (p : Item → Bool) (q : List Item)
    (h : ∀ x ∈ q, p x = false) : removeFirst p q = none := by
  induction q with
  | nil => rfl
  | cons x xs ih =>
      have hx : p x = false := h x (List.mem_cons_self x xs)
      simp only [removeFirst, hx, Bool.false_eq_true, if_false]
      rw [ih (fun y hy => h y (List.mem_cons_of_mem x hy))]
      rfl

theorem removeFirst_first_match (p : Item → Bool) (a b : List Item) (m : Item)
    (hm : p m = true) (ha : ∀ x ∈ a, p x = false) :
    removeFirst p (a ++ m :: b) = some (a ++ b) := by
  induction a with
  | nil => simp [removeFirst, hm]
  | cons x xs ih =>
      have hx : p x = false := ha x (List.mem_cons_self x xs)
      simp only [List.cons_append, removeFirst, hx, Bool.false_eq_true, if_false]
      have := ih (fun y hy => ha y (List.mem_cons_of_mem x hy))
      simp only [List.append_eq] at this ⊢
      rw [this]
      rfl

theorem eventMatches_isEvent (pci ci : Item) (h : eventMatches pci ci = true) :
    isEvent ci = true := by
  cases pci <;> cases ci <;> simp_all [eventMatches, isEvent]

theorem removeFirst_mem (p : Item → Bool) (q : List Item) (q' : List Item)
    (h : removeFirst p q = some q') (x : Item) (hx : x ∈ q) (hpx : p x = false) :
    x ∈ q' := by
  induction q generalizing q' with
  | nil => simp [removeFirst] at h
  | cons y ys ih =>
      by_cases hy : p y = true
      · simp only [removeFirst, hy, if_true, Option.some_inj] at h
        subst h
        rcases List.mem_cons.mp hx with rfl | hmem
        · rw [hpx] at hy; cases hy
        · exact hmem
      · have hyf : p y = false := by
          cases hpy : p y
          · rfl
          · exact absurd hpy hy
        simp only [removeFirst, hyf, Bool.false_eq_true, if_false] at h
        cases hrec : removeFirst p ys with
        | none => rw [hrec] at h; cases h
        | some zs =>
            rw [hrec] at h
            simp only [Option.map_some', Option.some_inj] at h
            subst h
            rcases List.mem_cons.mp hx with rfl | hmem
            · exact List.mem_cons_self x zs
            · exact List.mem_cons_of_mem y (ih zs hrec hmem)

/-- **C2**: a new `UpdateEvent` enqueued while the queue depth exceeds the
threshold (default 1000) removes and frees the oldest queued `UpdateEvent`
with the same (handle, type tag, subscription key), if one exists, before
the new item is appended, incrementing the discard counter by exactly one;
enqueues at or below the threshold, as well as `ConnectionEvent` and
`DiagnosticText` items, are never coalesced or dropped. -/
theorem load_element_coalescing_spec (q : List Item) (pci : Item) (limit : Nat) :
    multiple_check_limit = 1000 ∧
    (q.length ≤ limit → load_element q pci limit = (q ++ [pci], 0)) ∧
    (isEvent pci = false → load_element q pci limit = (q ++ [pci], 0)) ∧
    (∀ a m b, isEvent pci = true → q.length > limit →
      q = a ++ m :: b → eventMatches pci m = true →
      (∀ x ∈ a, eventMatches pci x = false) →
      load_element q pci limit = (a ++ b ++ [pci], 1)) ∧
    (isEvent pci = true → q.length > limit →
      (∀ x ∈ q, eventMatches pci x = false) →
      load_element q pci limit = (q ++ [pci], 0)) ∧
    (∀ ci ∈ q, isEvent ci = false → ci ∈ (load_element q pci limit).1) := by
  refine ⟨rfl, ?_, ?_, ?_, ?_, ?_⟩
  · intro hle
    have hneg : ¬ (isEvent pci = true ∧ q.length > limit) := by
      rintro ⟨_, hgt⟩; omega
    unfold load_element
    rw [if_neg hneg]
  · intro hne
    have hneg : ¬ (isEvent pci = true ∧ q.length > limit) := by
      rintro ⟨hev, _⟩; rw [hne] at hev; cases hev
    unfold load_element
    rw [if_neg hneg]
  · intro a m b hev hgt hq hm ha
    subst hq
    simp only [load_element, hev, hgt, and_self, if_true,
      removeFirst_first_match (eventMatches pci) a b m hm ha, List.append_assoc]
  · intro hev hgt hnone
    simp only [load_element, hev, hgt, and_self, if_true,
      removeFirst_no_match (eventMatches pci) q hnone]
  · intro ci hci hnev
    have hpm : eventMatches pci ci = false := by
      cases hem : eventMatches pci ci
      · rfl
      · rw [eventMatches_isEvent pci ci hem] at hnev; cases hnev
    by_cases hcond : isEvent pci = true ∧ q.length > limit
    · simp only [load_element, hcond, if_true]
      cases hrf : removeFirst (eventMatches pci) q with
      | none => exact List.mem_append_left _ hci
      | some q' =>
          exact List.mem_append_left _ (removeFirst_mem _ q q' hrf ci hci hpm)
    · simp only [load_element, hcond, if_false]
      exact List.mem_append_left _ hci

/-- Witness for `load_element_coalescing_spec`: a queue of two identical
update events above the threshold coalesces away the older one. -/
theorem load_element_coalescing_spec_witness :
    load_element [Item.event 1 20 3 [0], Item.event 1 20 3 [1]]
        (Item.event 1 20 3 [2]) 1 =
      ([Item.event 1 20 3 [1], Item.event 1 20 3 [2]], 1) := by
  have h := (load_element_coalescing_spec
    [Item.event 1 20 3 [0], Item.event 1 20 3 [1]] (Item.event 1 20 3 [2]) 1).2.2.2.1
  have := h [] (Item.event 1 20 3 [0]) [Item.event 1 20 3 [1]]
    (by decide) (by decide) rfl (by decide) (by intro x hx; cases hx)
  simpa using this

theorem drainLoop_spec (q : List Item) (n : Nat) (mx : Int) :
    drainLoop q n mx =
      (n + drainCount q n mx, q.drop (drainCount q n mx),
        (q.take (drainCount q n mx)).flatMap (fun i => [.dispatch i, .free i])) := by
  induction q generalizing n with
  | nil => simp [drainLoop, drainCount]
  | cons i rest ih =>
      by_cases hcut : ((n + 1 : Nat) : Int) ≥ mx
      · have hk : drainCount (i :: rest) n mx = 1 := by
          simp only [drainCount, List.length_cons]
          omega
        simp only [drainLoop, hcut, if_true, hk]
        simp
      · have hk : drainCount (i :: rest) n mx = drainCount rest (n + 1) mx + 1 := by
          simp only [drainCount, List.length_cons]
          omega
        simp only [drainLoop, hcut, if_false, ih (n + 1), hk, List.drop_succ_cons,
          List.take_succ_cons, List.flatMap_cons, List.cons_append, List.nil_append,
          Prod.mk.injEq, true_and, and_true]
        omega

/-- **C10**: `process_buffered_callbacks (max)` returns `-1` and does
nothing on an uninitialized queue; otherwise it pops items FIFO,
dispatching each and freeing its payload immediately after its dispatch,
processes at least one item when any exist regardless of `max`, at most
`max` items when `max ≥ 1`, and returns the number of items processed. -/
theorem process_buffered_callbacks_spec (initialized : Bool) (q : List Item) (mx : Int) :
    (initialized = false → process_buffered_callbacks initialized q mx = (-1, q, [])) ∧
    (initialized = true →
      process_buffered_callbacks initialized q mx =
        (((min (max mx.toNat 1) q.length : Nat) : Int), q.drop (min (max mx.toNat 1) q.length),
          (q.take (min (max mx.toNat 1) q.length)).flatMap
            (fun i => [.dispatch i, .free i])) ∧
      (q ≠ [] → 1 ≤ min (max mx.toNat 1) q.length) ∧
      (1 ≤ mx → ((min (max mx.toNat 1) q.length : Nat) : Int) ≤ mx)) := by
  constructor
  · intro h; subst h; rfl
  · intro h; subst h
    have hdc : drainCount q 0 mx = min (max mx.toNat 1) q.length := by
      simp only [drainCount]
      omega
    refine ⟨?_, ?_, ?_⟩
    · simp only [process_buffered_callbacks, if_true, drainLoop_spec q 0 mx, hdc]
      simp
    · intro hq
      have : 0 < q.length := List.length_pos.mpr hq
      omega
    · intro hmx
      omega

/-- Witness for `process_buffered_callbacks_spec`: a two-item queue drained
with `max = 5` dispatches then frees both items FIFO and returns 2. -/
theorem process_buffered_callbacks_spec_witness :
    process_buffered_callbacks true [Item.printf "a", Item.connection 1 6] 5 =
      (2, [], [Action.dispatch (Item.printf "a"), Action.free (Item.printf "a"),
               Action.dispatch (Item.connection 1 6), Action.free (Item.connection 1 6)]) := by
  have h := (process_buffered_callbacks_spec true
    [Item.printf "a", Item.connection 1 6] 5).2 rfl
  rw [h.1]
  decide

end BufferedCallbacks

namespace PayloadCache

/-- Publish-before-free: at every point during `updateBuffer` the cache's
data pointer refers to live storage, provided the cache was consistent on
entry (a heap data pointer targets the owned block, the owned block is
unfreed and distinct from the incoming one, the incoming block is live);
on return the pointer targets the new storage and the old block is freed. -/
theorem updateBuffer_no_freed_reference (c : Cache) (m : Mem) (blk : Nat) (len : Nat)
    (hown : ∀ b, c.dataRef = DataRef.heapBlock b → c.argsDbr = some b)
    (hold : ∀ b, c.argsDbr = some b → b ∉ m.freedIds ∧ b ≠ blk)
    (hblk : blk ∉ m.freedIds) :
    (∀ s ∈ updateBufferTrace c m blk len, refOk s.1 s.2 = true) ∧
    (updateBuffer c m blk len).1.dataRef =
      (if len ≤ MINIMUM_BUFFER_SIZE then DataRef.localBuf else DataRef.heapBlock blk) ∧
    (∀ b, c.argsDbr = some b → b ∈ (updateBuffer c m blk len).2.freedIds) := by
  have hrefOk : refOk c m = true := by
    cases hdr : c.dataRef with
    | localBuf => simp [refOk, hdr]
    | heapBlock b =>
        have := (hold b (hown b hdr)).1
        simp [refOk, hdr, this]
  by_cases hlen : len ≤ MINIMUM_BUFFER_SIZE
  · cases harg : c.argsDbr with
    | none =>
        refine ⟨?_, ?_, ?_⟩
        · intro s hs
          simp only [updateBufferTrace, hlen, if_true, harg, List.mem_cons,
            List.mem_singleton, List.not_mem_nil, or_false] at hs
          rcases hs with rfl | rfl | rfl | rfl | rfl
          · exact hrefOk
          · cases hdr : c.dataRef with
            | localBuf => simp [refOk, hdr]
            | heapBlock b =>
                have := (hold b (hown b hdr)).1
                simp [refOk, hdr, this]
          · cases hdr : c.dataRef with
            | localBuf => simp [refOk, hdr]
            | heapBlock b =>
                have := (hold b (hown b hdr)).1
                simp [refOk, hdr, Mem.write, this]
          · cases hdr : c.dataRef <;> simp [refOk, hdr]
          · cases hdr : c.dataRef <;> simp [refOk, hdr]
        · cases hdr : c.dataRef <;>
            simp [updateBuffer, updateBufferTrace, hlen, harg, hdr]
        · intro b hb; cases hb
    | some bOld =>
        have hOld := hold bOld harg
        refine ⟨?_, ?_, ?_⟩
        · intro s hs
          simp only [updateBufferTrace, hlen, if_true, harg, List.mem_cons,
            List.mem_singleton, List.not_mem_nil, or_false] at hs
          rcases hs with rfl | rfl | rfl | rfl | rfl
          · exact hrefOk
          · cases hdr : c.dataRef with
            | localBuf => simp [refOk, hdr]
            | heapBlock b =>
                have := (hold b (hown b hdr)).1
                simp [refOk, hdr, this]
          · cases hdr : c.dataRef with
            | localBuf => simp [refOk, hdr]
            | heapBlock b =>
                have := (hold b (hown b hdr)).1
                simp [refOk, hdr, Mem.write, this]
          · cases hdr : c.dataRef <;> simp [refOk, hdr]
          · cases hdr : c.dataRef <;> simp [refOk, hdr, Mem.free]
        · cases hdr : c.dataRef <;>
            simp [updateBuffer, updateBufferTrace, hlen, harg, hdr]
        · intro b hb
          cases hb
          cases hdr : c.dataRef <;>
            simp [updateBuffer, updateBufferTrace, hlen, harg, hdr, Mem.free]
  · cases harg : c.argsDbr with
    | none =>
        refine ⟨?_, ?_, ?_⟩
        · intro s hs
          simp only [updateBufferTrace, hlen, if_false, harg, List.mem_cons,
            List.mem_singleton, List.not_mem_nil, or_false] at hs
          rcases hs with rfl | rfl | rfl | rfl
          · exact hrefOk
          · exact hrefOk
          · simp [refOk, hblk]
          · simp [refOk, hblk]
        · simp [updateBuffer, updateBufferTrace, hlen, harg]
        · intro b hb; cases hb
    | some bOld =>
        have hOld := hold bOld harg
        refine ⟨?_, ?_, ?_⟩
        · intro s hs
          simp only [updateBufferTrace, hlen, if_false, harg, List.mem_cons,
            List.mem_singleton, List.not_mem_nil, or_false] at hs
          rcases hs with rfl | rfl | rfl | rfl
          · exact hrefOk
          · exact hrefOk
          · simp [refOk, hblk]
          · simp only [refOk, Mem.free, List.mem_cons, decide_eq_true_eq]
            intro hcon
            rcases hcon with h1 | h2
            · exact hOld.2 h1.symm
            · exact hblk h2
        · simp [updateBuffer, updateBufferTrace, hlen, harg]
        · intro b hb
          cases hb
          simp [updateBuffer, updateBufferTrace, hlen, harg, Mem.free]

/-- **C1** (exhibit of the divergence at the failing input): after a
heap-resident 48-byte payload in block 1, a new 8-byte payload arriving in
block 2 fits the inline buffer, but `updateBuffer` copies it to the
*current* data pointer — the old heap block — and then publishes the
untouched inline buffer.  The published storage does not contain the
received value bytes (it still holds the stale bytes 9), the copy went into
the block that is freed at the end of the call. -/
theorem updateBuffer_small_after_large_loses_data :
    (updateBuffer ⟨List.replicate 40 9, some 1, DataRef.heapBlock 1⟩
        ⟨[(1, List.replicate 48 5), (2, List.replicate 8 7)], []⟩ 2 8).1.dataRef
        = DataRef.localBuf ∧
    (updateBuffer ⟨List.replicate 40 9, some 1, DataRef.heapBlock 1⟩
        ⟨[(1, List.replicate 48 5), (2, List.replicate 8 7)], []⟩ 2 8).1.localBuffer.take 8
        ≠ List.replicate 8 7 ∧
    (updateBuffer ⟨List.replicate 40 9, some 1, DataRef.heapBlock 1⟩
        ⟨[(1, List.replicate 48 5), (2, List.replicate 8 7)], []⟩ 2 8).2.freedIds = [1] := by
  decide

end PayloadCache

namespace Validate

theorem cast_eq_some (mem : Nat → Client) (item : Nat) (addr : Nat) :
    cast mem item = some addr ↔
      item = addr ∧ addr ≠ 0 ∧ (mem addr).magic_number = MAGIC_NUMBER_C ∧
      ∃ p, (mem addr).pd = some p ∧ p.magic_number = MAGIC_NUMBER_P := by
  constructor
  · intro h
    simp only [cast] at h
    by_cases h0 : item = 0
    · simp [h0] at h
    · rw [if_neg h0] at h
      by_cases hm : (mem item).magic_number = MAGIC_NUMBER_C
      · rw [if_pos hm] at h
        cases hpd : (mem item).pd with
        | none => simp [hpd] at h
        | some p =>
            simp only [hpd] at h
            by_cases hp : p.magic_number = MAGIC_NUMBER_P
            · rw [if_pos hp] at h
              cases h
              exact ⟨rfl, h0, hm, p, hpd, hp⟩
            · rw [if_neg hp] at h; cases h
      · rw [if_neg hm] at h; cases h
  · rintro ⟨rfl, h0, hm, p, hpd, hp⟩
    simp only [cast, if_neg h0, hm, if_true, hpd, hp]

theorem eventHandler_unknown_usr (p : PData) (usr : Nat)
    (statusNormal dbrPresent : Bool)
    (hg : usr ≠ p.getFuncArg) (hs : usr ≠ p.subFuncArg) (hp : usr ≠ p.putFuncArg) :
    eventHandler p usr statusNormal dbrPresent = EventOutcome.discarded := by
  simp only [eventHandler]
  rw [if_neg, if_neg hp]
  rintro (h | h)
  · exact hg h
  · exact hs h

/-- **C3** (amended): `validateChannelId` returns a client exactly when the
handle is non-null, the attached user data is non-null and carries both
magic-number markers, and the client's stored channel handle equals the
incoming handle — any failed check yields null.  A get/sub/put event whose
user tag matches none of the recovered client's current function arguments
is silently discarded by `eventHandler`; this (not `validateChannelId`) is
what keeps a stale update event from being applied to a newer client that
reuses the closed client's handle value.  Connection events carry no user
tag and are delivered to whichever client currently owns the handle. -/
theorem validateChannelId_spec (mem : Nat → Client) (puser : Nat → Nat)
    (channel_id : Nat) (addr : Nat) :
    (validateChannelId mem puser channel_id = some addr ↔
      channel_id ≠ 0 ∧ puser channel_id = addr ∧ addr ≠ 0 ∧
      (mem addr).magic_number = MAGIC_NUMBER_C ∧
      ∃ p, (mem addr).pd = some p ∧ p.magic_number = MAGIC_NUMBER_P ∧
           p.channel_id = channel_id) ∧
    (∀ p usr statusNormal dbrPresent,
      validateChannelId mem puser channel_id = some addr →
      (mem addr).pd = some p →
      usr ≠ p.getFuncArg → usr ≠ p.subFuncArg → usr ≠ p.putFuncArg →
      dataEventDisposition mem puser channel_id usr statusNormal dbrPresent =
        some (addr, EventOutcome.discarded)) := by
  constructor
  · constructor
    · intro h
      simp only [validateChannelId] at h
      by_cases h0 : channel_id = 0
      · simp [h0] at h
      · rw [if_neg h0] at h
        by_cases hu : puser channel_id = 0
        · simp [hu] at h
        · rw [if_neg hu] at h
          cases hc : cast mem (puser channel_id) with
          | none => simp [hc] at h
          | some addr' =>
              simp only [hc] at h
              obtain ⟨heq, hne, hm, p, hpd, hp⟩ :=
                (cast_eq_some mem (puser channel_id) addr').mp hc
              simp only [hpd] at h
              by_cases hz : p.channel_id = 0
              · simp [hz] at h
              · rw [if_neg hz] at h
                by_cases hcid : p.channel_id ≠ channel_id
                · simp [if_pos hcid] at h
                · rw [if_neg hcid] at h
                  cases h
                  push_neg at hcid
                  exact ⟨h0, heq, hne, hm, p, hpd, hp, hcid⟩
    · rintro ⟨h0, hpu, hne, hm, p, hpd, hp, hcid⟩
      have hc : cast mem (puser channel_id) = some addr :=
        (cast_eq_some mem (puser channel_id) addr).mpr ⟨hpu, hne, hm, p, hpd, hp⟩
      have hz : p.channel_id ≠ 0 := by rw [hcid]; exact h0
      have hu : puser channel_id ≠ 0 := by rw [hpu]; exact hne
      simp only [validateChannelId, if_neg h0, if_neg hu, hc, hpd, if_neg hz]
      rw [if_neg (by rw [hcid]; exact fun hx => hx rfl)]
  · intro p usr statusNormal dbrPresent hv hpd hg hs hp
    simp only [dataEventDisposition, hv, hpd,
      eventHandler_unknown_usr p usr statusNormal dbrPresent hg hs hp]

/-- Witness for `validateChannelId_spec`: in the reuse world the handle 7
resolves to the client at address 2, and a stale update event carrying the
old client's user tag 99 is discarded rather than applied. -/
theorem validateChannelId_spec_witness :
    validateChannelId memReuse puserReuse 7 = some 2 ∧
    dataEventDisposition memReuse puserReuse 7 99 true true =
      some (2, EventOutcome.discarded) := by
  constructor
  · exact (validateChannelId_spec memReuse puserReuse 7 2).1.mpr
      ⟨by decide, by decide, by decide, by decide,
        ⟨MAGIC_NUMBER_P, 7, 31, 32, 33, false⟩, by decide, by decide, by decide⟩
  · exact (validateChannelId_spec memReuse puserReuse 7 2).2
      ⟨MAGIC_NUMBER_P, 7, 31, 32, 33, false⟩ 99 true true (by decide) (by decide)
      (by decide) (by decide) (by decide)

/-- **C3** (counterexample): a connection notification that was enqueued
for the original client (address 1, now closed) under foreign handle 7 is,
after handle reuse, applied to the newer client at address 2 — it is not
discarded, contradicting the claim that such a notification is never
applied to the newer channel. -/
theorem staleConnection_applied_to_reusing_client :
    connectionEventTarget memReuse puserReuse 7 = some 2 ∧ (2 : Nat) ≠ 1 := by
  constructor
  · decide
  · decide

end Validate

namespace Dispatch

theorem iterateUsers_all_ok (users : List (Nat × Behavior))
    (h : ∀ x ∈ users, x.2 = Behavior.ok) :
    iterateUsers users = (users.map Prod.fst, false) := by
  induction users with
  | nil => rfl
  | cons u rest ih =>
      obtain ⟨i, b⟩ := u
      have hb : b = Behavior.ok := h (i, b) (List.mem_cons_self _ _)
      subst hb
      simp only [iterateUsers, ih (fun x hx => h x (List.mem_cons_of_mem _ hx)),
        List.map_cons]

theorem iterateUsers_first_throw (a b : List (Nat × Behavior)) (i : Nat)
    (ha : ∀ x ∈ a, x.2 = Behavior.ok) :
    iterateUsers (a ++ (i, Behavior.throws) :: b) = (a.map Prod.fst ++ [i], true) := by
  induction a with
  | nil => simp [iterateUsers]
  | cons u rest ih =>
      obtain ⟨j, bj⟩ := u
      have hb : bj = Behavior.ok := ha (j, bj) (List.mem_cons_self _ _)
      subst hb
      have ih' := ih (fun x hx => ha x (List.mem_cons_of_mem _ hx))
      simp only [List.cons_append, iterateUsers, List.map_cons]
      simp [ih']

/-- **C4** (counterexample): with one `try` block around the whole chain,
an exception in the first observer prevents the second observer and the
function-pointer handler from being invoked during that dispatch — the
claim that dispatch continues to the next observer and the handler fails. -/
theorem exception_stops_dispatch_chain :
    (callDataUpdate Behavior.ok [(1, Behavior.throws), (2, Behavior.ok)]
        (some Behavior.ok)).invoked = [1] ∧
    2 ∉ (callDataUpdate Behavior.ok [(1, Behavior.throws), (2, Behavior.ok)]
        (some Behavior.ok)).invoked ∧
    (callDataUpdate Behavior.ok [(1, Behavior.throws), (2, Behavior.ok)]
        (some Behavior.ok)).handlerCalled = false := by
  refine ⟨by decide, by decide, by decide⟩

/-- **C4** (amended): an exception raised inside an observer is caught at
the event-dispatch level (`callDataUpdate` and peers) by the single
`try`/`ACAI_CATCH_EXCEPTION` wrapping the whole delivery chain, and is
reported via diagnostics; the remaining observers and the function-pointer
handler of *that* event are skipped, but the dispatch call itself always
returns normally — hence the consumer drain loop is never aborted.  When no
callback throws, every observer and the handler are invoked and nothing is
reported. -/
theorem callDataUpdate_exception_spec (hook : Behavior)
    (users : List (Nat × Behavior)) (handler : Option Behavior)
    (a b : List (Nat × Behavior)) (i : Nat) :
    (users = a ++ (i, Behavior.throws) :: b → (∀ x ∈ a, x.2 = Behavior.ok) →
      hook = Behavior.ok →
      callDataUpdate hook users handler = ⟨true, a.map Prod.fst ++ [i], false, 1⟩) ∧
    ((∀ x ∈ users, x.2 = Behavior.ok) → hook = Behavior.ok →
      callDataUpdate hook users handler =
        ⟨true, users.map Prod.fst, handler.isSome,
          if handler = some Behavior.throws then 1 else 0⟩) := by
  constructor
  · intro hu ha hh
    subst hu; subst hh
    simp only [callDataUpdate, iterateUsers_first_throw a b i ha, if_true]
  · intro hall hh
    subst hh
    simp only [callDataUpdate, iterateUsers_all_ok users hall, Bool.false_eq_true,
      if_false]
    cases handler with
    | none => rfl
    | some hb => cases hb <;> rfl

/-- Witness for `callDataUpdate_exception_spec`: both the throwing and the
all-normal cases evaluated on concrete observer lists. -/
theorem callDataUpdate_exception_spec_witness :
    callDataUpdate Behavior.ok [(1, Behavior.ok), (2, Behavior.throws), (3, Behavior.ok)]
        (some Behavior.ok) = ⟨true, [1, 2], false, 1⟩ ∧
    callDataUpdate Behavior.ok [(1, Behavior.ok), (2, Behavior.ok)]
        (some Behavior.ok) = ⟨true, [1, 2], true, 0⟩ := by
  constructor
  · have h := (callDataUpdate_exception_spec Behavior.ok
      [(1, Behavior.ok), (2, Behavior.throws), (3, Behavior.ok)] (some Behavior.ok)
      [(1, Behavior.ok)] [(3, Behavior.ok)] 2).1 rfl (by decide) rfl
    simpa using h
  · have h := (callDataUpdate_exception_spec Behavior.ok
      [(1, Behavior.ok), (2, Behavior.ok)] (some Behavior.ok)
      [] [] 0).2 (by decide) rfl
    simpa using h

end Dispatch

namespace Dispatch

theorem afterPos_mono (last : Option Nat) (y z : Nat) (hyz : y < z)
    (hy : afterPos last y = true) : afterPos last z = true := by
  cases last with
  | none => rfl
  | some x =>
      simp only [afterPos, decide_eq_true_eq] at hy ⊢
      omega

theorem sorted_filter_after (s : List Nat) (hs : List.Sorted (· < ·) s)
    (last : Option Nat) (cur : Nat) (tl : List Nat)
    (h : s.filter (afterPos last) = cur :: tl) :
    tl = s.filter (afterPos (some cur)) := by
  induction s with
  | nil => simp at h
  | cons a s' ih =>
      have hlt : ∀ b ∈ s', a < b := (List.sorted_cons.mp hs).1
      have hs' : List.Sorted (· < ·) s' := (List.sorted_cons.mp hs).2
      cases hA : afterPos last a with
      | true =>
          rw [List.filter_cons_of_pos hA] at h
          injection h with h1 h2
          subst h1
          have hall : s'.filter (afterPos last) = s' :=
            List.filter_eq_self.mpr (fun b hb => afterPos_mono last a b (hlt b hb) hA)
          have hall2 : s'.filter (afterPos (some a)) = s' :=
            List.filter_eq_self.mpr (fun b hb => by
              simp only [afterPos, decide_eq_true_eq]
              exact hlt b hb)
          rw [List.filter_cons_of_neg (by simp [afterPos]), hall2, ← h2, hall]
      | false =>
          rw [List.filter_cons_of_neg (by simp [hA])] at h
          have hcur_mem : cur ∈ s' := by
            have hm : cur ∈ s'.filter (afterPos last) := by
              rw [h]; exact List.mem_cons_self _ _
            exact List.mem_of_mem_filter hm
          have hac : a < cur := hlt cur hcur_mem
          rw [List.filter_cons_of_neg (by simp only [afterPos, decide_eq_true_eq]; omega)]
          exact ih hs' h

theorem liveIterate_no_mutation (act : Nat → ObsAction) (fuel : Nat)
    (s : List Nat) (last : Option Nat)
    (hs : List.Sorted (· < ·) s)
    (hact : ∀ i ∈ s, act i = ObsAction.none)
    (hfuel : (s.filter (afterPos last)).length ≤ fuel) :
    liveIterate act fuel last s = (s.filter (afterPos last), s) := by
  induction fuel generalizing last with
  | zero =>
      have hnil : s.filter (afterPos last) = [] :=
        List.length_eq_zero.mp (Nat.le_zero.mp hfuel)
      simp [liveIterate, hnil]
  | succ fuel ih =>
      cases hf : s.filter (afterPos last) with
      | nil =>
          simp [liveIterate, nextAfter, hf]
      | cons cur tl =>
          have hcur_mem : cur ∈ s := List.mem_of_mem_filter
            (by rw [hf]; exact List.mem_cons_self cur tl)
          have hactcur : act cur = ObsAction.none := hact cur hcur_mem
          have htl : tl = s.filter (afterPos (some cur)) :=
            sorted_filter_after s hs last cur tl hf
          have hlen : (s.filter (afterPos (some cur))).length ≤ fuel := by
            rw [← htl]
            rw [hf] at hfuel
            simpa using Nat.lt_succ_iff.mp (Nat.lt_of_lt_of_le
              (Nat.lt_succ_of_le (Nat.le_refl _)) hfuel)
          simp only [liveIterate, nextAfter, hf, List.head?_cons, hactcur, applyAction]
          simp only [ih (some cur) hlen, htl]

end Dispatch

namespace Dispatch

/-- **C5** (counterexample): `ACAI_ITERATE` runs over the *live*
`std::set`, not over a snapshot: an observer that reentrantly registers a
later-ordered observer causes the new observer to be visited in the same
dispatch, so the iteration is affected by reentrant registration. -/
theorem reentrant_registration_affects_iteration :
    (liveIterate (fun i => if i = 1 then ObsAction.register 2 else ObsAction.none)
        3 none [1]).1 = [1, 2] ∧ ([1, 2] : List Nat) ≠ [1] := by
  exact ⟨by decide, by decide⟩

/-- **C5** (amended): every dispatch delivers in the fixed order (1) the
channel's own virtual hook, (2) the iteration over the registered-observer
set — performed on the live set, so that when no observer mutates the
registrations reentrantly exactly the registered observers are invoked,
each once, in order — and (3) the single optional function-pointer
handler. -/
theorem dispatchDeliveries_spec (users : List Nat) (act : Nat → ObsAction)
    (hasHandler : Bool) (fuel : Nat)
    (hs : List.Sorted (· < ·) users)
    (hact : ∀ i ∈ users, act i = ObsAction.none)
    (hfuel : users.length ≤ fuel) :
    dispatchDeliveries users act hasHandler fuel =
      Delivery.hook :: (users.map Delivery.observer ++
        (if hasHandler then [Delivery.handler] else [])) := by
  have hfull : users.filter (afterPos none) = users :=
    List.filter_eq_self.mpr (fun b _ => rfl)
  have h := liveIterate_no_mutation act fuel users none hs hact
    (by rw [hfull]; exact hfuel)
  simp only [dispatchDeliveries, h, hfull]

/-- Witness for `dispatchDeliveries_spec`: two quiescent observers are
delivered between the hook and the handler, in order. -/
theorem dispatchDeliveries_spec_witness :
    dispatchDeliveries [3, 5] (fun _ => ObsAction.none) true 2 =
      [Delivery.hook, Delivery.observer 3, Delivery.observer 5, Delivery.handler] := by
  have h := dispatchDeliveries_spec [3, 5] (fun _ => ObsAction.none) true 2
    (by decide) (fun i _ => rfl) (by decide)
  simpa using h

end Dispatch

namespace Put

/-- **C6**: `putData` returns false and issues nothing when the channel is
not connected or has no channel id; in put-callback mode it returns false
and issues nothing while a put callback is pending, and otherwise issues
the write and sets the pending flag exactly when the foreign call
succeeded; the acknowledgement clears the flag (dispatching the write-ack
exactly when one was pending), after which a write succeeds again — so at
most one write-acknowledgement is outstanding per channel at any time. -/
theorem putData_spec (s : PutState) (foreignOk : Bool) :
    (s.connected = false → putData s foreignOk = (false, s, Issued.nothing)) ∧
    (s.channel_id = 0 → putData s foreignOk = (false, s, Issued.nothing)) ∧
    (s.connected = true → s.channel_id ≠ 0 → s.use_put_callback = true →
      s.pending_put_callback = true →
      putData s foreignOk = (false, s, Issued.nothing)) ∧
    (s.connected = true → s.channel_id ≠ 0 → s.use_put_callback = true →
      s.pending_put_callback = false →
      putData s foreignOk =
        (foreignOk, { s with pending_put_callback := foreignOk }, Issued.putCallback)) ∧
    ((putAck s).1.pending_put_callback = false ∧ (putAck s).2 = s.pending_put_callback) ∧
    (s.connected = true → s.channel_id ≠ 0 → s.use_put_callback = true →
      putData (putAck s).1 true =
        (true, { s with pending_put_callback := true }, Issued.putCallback)) := by
  obtain ⟨conn, cid, use, pend⟩ := s
  refine ⟨?_, ?_, ?_, ?_, ?_, ?_⟩
  · intro h; subst h; simp [putData]
  · intro h; subst h; simp [putData]
  · intro hc hid huse hpend
    subst hc; subst huse; subst hpend
    simp [putData, hid]
  · intro hc hid huse hpend
    subst hc; subst huse; subst hpend
    simp [putData, hid]
  · cases pend <;> simp [putAck]
  · intro hc hid huse
    subst hc; subst huse
    cases pend <;> simp [putAck, putData, hid]

/-- Witness for `putData_spec`: the end-to-end put-ack scenario.  With
put-callback mode on and the channel connected, the first write succeeds
and marks a callback pending, an immediate second write is rejected without
issuing anything, and after the acknowledgement arrives a third write
succeeds again. -/
theorem putData_spec_witness :
    putData ⟨true, 7, true, false⟩ true = (true, ⟨true, 7, true, true⟩, Issued.putCallback) ∧
    putData ⟨true, 7, true, true⟩ true = (false, ⟨true, 7, true, true⟩, Issued.nothing) ∧
    putAck ⟨true, 7, true, true⟩ = (⟨true, 7, true, false⟩, true) ∧
    putData ⟨true, 7, true, false⟩ true = (true, ⟨true, 7, true, true⟩, Issued.putCallback) := by
  refine ⟨?_, ?_, ?_, ?_⟩
  · exact (putData_spec ⟨true, 7, true, false⟩ true).2.2.2.1 rfl (by decide) rfl rfl
  · exact (putData_spec ⟨true, 7, true, true⟩ true).2.2.1 rfl (by decide) rfl rfl
  · have h := (putData_spec ⟨true, 7, true, true⟩ true).2.2.2.2.1
    simp only [putAck] at h ⊢
    decide
  · exact (putData_spec ⟨true, 7, true, false⟩ true).2.2.2.1 rfl (by decide) rfl rfl

end Put

namespace Conn

/-- **C7**: a repeated connection-up notification fires at most one
connection dispatch: the dispatch chain runs only when the channel's
connected state differs from the state reported by the previous connection
dispatch, so the second `onConnectedUp` leaves the dispatch log unchanged. -/
theorem repeated_connect_up_single_dispatch (s : ConnState) :
    (onConnectedUp (onConnectedUp s)).dispatches = (onConnectedUp s).dispatches ∧
    (onConnectedUp s).dispatches.length ≤ s.dispatches.length + 1 ∧
    (∀ t : ConnState, t.lastIsConnected = isConnected t → callConnectionUpdate t = t) ∧
    (∀ t : ConnState, t.lastIsConnected ≠ isConnected t →
      (callConnectionUpdate t).dispatches = t.dispatches ++ [isConnected t]) := by
  refine ⟨?_, ?_, ?_, ?_⟩
  · obtain ⟨cs, last, pend, disp⟩ := s
    cases last <;> simp [onConnectedUp, callConnectionUpdate, isConnected]
  · obtain ⟨cs, last, pend, disp⟩ := s
    cases last <;> simp [onConnectedUp, callConnectionUpdate, isConnected]
  · intro t h
    obtain ⟨cs, last, pend, disp⟩ := t
    simp only [isConnected] at h
    simp [callConnectionUpdate, isConnected, h]
  · intro t h
    obtain ⟨cs, last, pend, disp⟩ := t
    simp only [isConnected] at h
    simp only [callConnectionUpdate, isConnected]
    rw [if_neg]
    simpa using h

/-- Witness for `repeated_connect_up_single_dispatch`: starting from a
never-connected client, two consecutive connection-up notifications fire
exactly one dispatch, reporting `true`. -/
theorem repeated_connect_up_single_dispatch_witness :
    (onConnectedUp (onConnectedUp
      ⟨ConnectionStatus.csNull, false, false, []⟩)).dispatches = [true] := by
  have h := repeated_connect_up_single_dispatch ⟨ConnectionStatus.csNull, false, false, []⟩
  rw [h.1]
  decide

end Conn

namespace Registration

/-- **C8**: registration symmetry — after `registerClient`,
`deregisterClient`, and the destruction of either side, an observer is in a
channel's registered-user set iff that channel is in the observer's
registered-client set; destroying a channel removes it from every
observer's client set and empties its own user set, and destroying an
observer symmetrically removes it from every channel's user set. -/
theorem registration_symmetry (w : World) (hw : Symm w) (u c : Nat) :
    Symm (registerClient w u c) ∧
    Symm (deregisterClient w u c) ∧
    Symm (destroyClient w c) ∧
    Symm (destroyUser w u) ∧
    (∀ v, c ∉ (destroyClient w c).uc v) ∧
    ((destroyClient w c).cu c = ∅) ∧
    (∀ d, u ∉ (destroyUser w u).cu d) ∧
    ((destroyUser w u).uc u = ∅) := by
  refine ⟨?_, ?_, ?_, ?_, ?_, ?_, ?_, ?_⟩
  · intro v d
    simp only [registerClient, Function.update_apply]
    by_cases hc : d = c
    · subst hc
      by_cases hu : v = u
      · subst hu; simp
      · simp [hu, Finset.mem_insert, hw v d]
    · by_cases hu : v = u
      · subst hu; simp [hc, Finset.mem_insert, hw v d]
      · simp [hc, hu, hw v d]
  · intro v d
    simp only [deregisterClient, Function.update_apply]
    by_cases hc : d = c
    · subst hc
      by_cases hu : v = u
      · subst hu; simp
      · simp [hu, Finset.mem_erase, hw v d]
    · by_cases hu : v = u
      · subst hu; simp [hc, Finset.mem_erase, hw v d]
      · simp [hc, hu, hw v d]
  · intro v d
    simp only [destroyClient, Function.update_apply]
    by_cases hc : d = c
    · rw [if_pos hc, hc]
      simp only [Finset.not_mem_empty, false_iff]
      by_cases hu : v ∈ w.cu c
      · rw [if_pos hu]
        simp
      · rw [if_neg hu]
        exact fun hcon => hu ((hw v c).mpr hcon)
    · rw [if_neg hc]
      by_cases hu : v ∈ w.cu c
      · rw [if_pos hu]
        simp [Finset.mem_erase, hc, hw v d]
      · rw [if_neg hu]
        exact hw v d
  · intro v d
    simp only [destroyUser, Function.update_apply]
    by_cases hv : v = u
    · rw [if_pos hv, hv]
      simp only [Finset.not_mem_empty, iff_false]
      by_cases hcd : d ∈ w.uc u
      · rw [if_pos hcd]
        simp
      · rw [if_neg hcd]
        exact fun hcon => hcd ((hw u d).mp hcon)
    · rw [if_neg hv]
      by_cases hcd : d ∈ w.uc u
      · rw [if_pos hcd]
        simp [Finset.mem_erase, hv, hw v d]
      · rw [if_neg hcd]
        exact hw v d
  · intro v
    simp only [destroyClient]
    by_cases hu : v ∈ w.cu c
    · rw [if_pos hu]
      simp
    · rw [if_neg hu]
      exact fun hcon => hu ((hw v c).mpr hcon)
  · simp [destroyClient]
  · intro d
    simp only [destroyUser]
    by_cases hc : d ∈ w.uc u
    · rw [if_pos hc]
      simp
    · rw [if_neg hc]
      exact fun hcon => hc ((hw u d).mp hcon)
  · simp [destroyUser]

/-- Witness for `registration_symmetry`: registering observer 1 with
channel 2 in the empty world preserves symmetry, and destroying channel 2
afterwards removes it from observer 1's client set. -/
theorem registration_symmetry_witness :
    Symm (registerClient ⟨fun _ => ∅, fun _ => ∅⟩ 1 2) ∧
    2 ∉ (destroyClient (registerClient ⟨fun _ => ∅, fun _ => ∅⟩ 1 2) 2).uc 1 := by
  constructor
  · exact (registration_symmetry ⟨fun _ => ∅, fun _ => ∅⟩ (fun v d => by simp) 1 2).1
  · exact (registration_symmetry (registerClient ⟨fun _ => ∅, fun _ => ∅⟩ 1 2)
      (registration_symmetry ⟨fun _ => ∅, fun _ => ∅⟩ (fun v d => by simp) 1 2).1
      1 2).2.2.2.2.1 1

end Registration

namespace Update

/-- **C9** (counterexample): an update arriving while the channel is not
connected is ignored, but not silently — `updateHandler` issues a
diagnostic through `reportError` ("connection status is not csConnected"),
contradicting the claim that such events are silently ignored and not
treated as errors.  (The invalid-type-tag case likewise reports.) -/
theorem update_not_connected_reports :
    (updateHandler ⟨Conn.ConnectionStatus.csDisconnected, true, [], 0, 0, 0, 0⟩
        true 8 1 [1, 2, 3, 4, 5, 6, 7, 8] false 5 5).reports = 1 ∧ (1 : Nat) ≠ 0 := by
  exact ⟨by decide, by decide⟩

/-- **C9** (amended): `updateHandler` ignores — leaving the cached payload,
metadata, alarm/time status, and first-update flag unchanged, and firing no
update dispatch — any incoming payload whose dbr type tag is invalid, whose
value byte length is zero, or which arrives while the channel is not
connected; the zero-length case is ignored silently, while the
not-connected and invalid-type cases each issue one diagnostic report. -/
theorem updateHandler_guard_spec (s : UState) (typeValid : Bool)
    (valueSize count : Nat) (newPayload : List Nat) (isControlType : Bool)
    (newMeta newAlarm : Nat) :
    (s.connectionStatus ≠ Conn.ConnectionStatus.csConnected →
      updateHandler s typeValid valueSize count newPayload isControlType newMeta newAlarm
        = ⟨s, [], 1⟩) ∧
    (s.connectionStatus = Conn.ConnectionStatus.csConnected → typeValid = false →
      updateHandler s typeValid valueSize count newPayload isControlType newMeta newAlarm
        = ⟨s, [], 1⟩) ∧
    (s.connectionStatus = Conn.ConnectionStatus.csConnected → typeValid = true →
      valueSize * count = 0 →
      updateHandler s typeValid valueSize count newPayload isControlType newMeta newAlarm
        = ⟨s, [], 0⟩) ∧
    (s.connectionStatus = Conn.ConnectionStatus.csConnected → typeValid = true →
      valueSize * count ≠ 0 →
      (updateHandler s typeValid valueSize count newPayload isControlType
          newMeta newAlarm).dispatched = [s.is_first_update] ∧
      (updateHandler s typeValid valueSize count newPayload isControlType
          newMeta newAlarm).state.is_first_update = false) := by
  refine ⟨?_, ?_, ?_, ?_⟩
  · intro h
    simp [updateHandler, h]
  · intro hc ht
    subst ht
    simp [updateHandler, hc]
  · intro hc ht hz
    subst ht
    simp [updateHandler, hc, hz]
  · intro hc ht hz
    subst ht
    simp [updateHandler, hc, hz]

/-- Witness for `updateHandler_guard_spec`: a zero-length update on a
connected channel is silently ignored, leaving the state untouched. -/
theorem updateHandler_guard_spec_witness :
    updateHandler ⟨Conn.ConnectionStatus.csConnected, true, [9], 3, 4, 1, 1⟩
        true 8 0 [] false 0 0
      = ⟨⟨Conn.ConnectionStatus.csConnected, true, [9], 3, 4, 1, 1⟩, [], 0⟩ := by
  exact (updateHandler_guard_spec ⟨Conn.ConnectionStatus.csConnected, true, [9], 3, 4, 1, 1⟩
    true 8 0 [] false 0 0).2.2.1 rfl rfl (by decide)

end Update
